import Mathlib

/-!
Verification of the multi-agent particle environment
(`multiagent/environment.py`, class `MultiAgentEnv`).

The Python code is shallowly embedded: numpy float arrays become `List ℚ`
(the float arithmetic exercised by the claims is exact on the values
involved), numpy int arrays become `List ℕ`, and Python runtime failures
(IndexError, ValueError from numpy shape mismatches or ambiguous array
truth values, AssertionError) become `Except`/`Option` failures.
-/

namespace MPE

/-- Model of `np.cumsum` on an int list: running sums, one output entry per
input entry. -/
def cumsumFrom : List ℕ → ℕ → List ℕ
  | [], _ => []
  | x :: xs, acc => (acc + x) :: cumsumFrom xs (acc + x)

/-- `np.cumsum l`. -/
def npCumsum (l : List ℕ) : List ℕ :=
  cumsumFrom l 0

/-- Model of the numpy slice assignment `dest[off : off+len(src)] = src`.
The left hand slice clamps to the array bounds, and numpy raises a
ValueError when the clamped destination length differs from the source
length, so the write succeeds exactly when `off + src.length ≤ dest.length`
or `src` is empty. -/
def writeSeg (dest : List ℚ) (off : ℕ) (src : List ℚ) : Option (List ℚ) :=
  if src.length = 0 ∨ off + src.length ≤ dest.length then
    some (dest.take off ++ src ++ dest.drop (off + src.length))
  else none

/-- Model of the translation loop shared by `get_obs_agent` and `get_state`:
`new = np.zeros(tmap[-1]); for i in range(len(tmap)-1):
  new[tmap[i] : tmap[i]+(bounds[i+1]-bounds[i])] = flat[bounds[i]:bounds[i+1]]`.
Reading `tmap[-1]` of an empty map and reading `bounds` out of range are
IndexErrors (`none`). -/
def translate (tmap : List ℕ) (bounds : List ℕ) (flat : List ℚ) :
    Option (List ℚ) :=
  match tmap.getLast? with
  | none => none
  | some total =>
    (List.range (tmap.length - 1)).foldlM
      (fun acc i => do
        let bi ← bounds.get? i
        let bi1 ← bounds.get? (i + 1)
        let ti ← tmap.get? i
        writeSeg acc ti ((flat.drop bi).take (bi1 - bi)))
      (List.replicate total (0 : ℚ))

/-! ## World model

Only the fields the environment reads are modelled: every entity has
`state.p_pos` and `state.p_vel`; landmarks are read for position only.
The world is two dimensional (`dim_p = 2`), matching the hard coded segment
widths 4 and 2 in the source. -/

structure EntSt where
  p_pos : ℚ × ℚ
  p_vel : ℚ × ℚ
deriving Repr, DecidableEq

structure World where
  agents : List EntSt
  landmarks : List (ℚ × ℚ)
deriving Repr, DecidableEq

/-! ## Observation assembly (`get_obs_agent`, lines 389-419) -/

/-- `[agent.state.p_pos, agent.state.p_vel]` flattened. -/
def selfObs (a : EntSt) : List ℚ :=
  [a.p_pos.1, a.p_pos.2, a.p_vel.1, a.p_vel.2]

/-- the loop `for i, a in enumerate(world.agents): if i != agent_id:
obs.append(agent.state.p_pos - a.state.p_pos)`, flattened.  `i` is the
running enumeration index. -/
def obsOthers (p : ℚ × ℚ) : List EntSt → ℕ → ℕ → List ℚ
  | [], _, _ => []
  | a :: rest, i, id =>
    (if i = id then [] else [p.1 - a.p_pos.1, p.2 - a.p_pos.2]) ++
      obsOthers p rest (i + 1) id

/-- the loop `for landmark in world.landmarks:
obs.append(landmark.state.p_pos - agent.state.p_pos)`, flattened. -/
def obsLandmarks (p : ℚ × ℚ) (ls : List (ℚ × ℚ)) : List ℚ :=
  ls.flatMap fun l => [l.1 - p.1, l.2 - p.2]

/-- the flat (untranslated) observation `np.concatenate(obs)`. -/
def obsFlat (a : EntSt) (w : World) (id : ℕ) : List ℚ :=
  selfObs a ++ obsOthers a.p_pos w.agents 0 id ++
    obsLandmarks a.p_pos w.landmarks

/-- `obs_structure = [0, 4]; ...append(2*(len(agents)-1)); ...append(2*len(landmarks))`. -/
def obsWidths (w : World) : List ℕ :=
  [0, 4, 2 * (w.agents.length - 1), 2 * w.landmarks.length]

/-- `get_obs_agent(agent_id, structure=True)`: indexes
`world.agents[agent_id]` (IndexError when out of range), then returns
`np.cumsum(obs_structure)`. -/
def get_obs_structure (w : World) (id : ℕ) : Option (List ℕ) :=
  (w.agents.get? id).map fun _ => npCumsum (obsWidths w)

/-- `get_obs_agent(agent_id)` in value mode; `tr` is
`self.translate_observation` (`none` when no translation map is
configured). -/
def get_obs_agent (w : World) (id : ℕ) (tr : Option (List ℕ)) :
    Option (List ℚ) :=
  match w.agents.get? id with
  | none => none
  | some a =>
    match tr with
    | none => some (obsFlat a w id)
    | some tmap => translate tmap (npCumsum (obsWidths w)) (obsFlat a w id)

/-! ## Global state assembly (`get_state`, lines 424-453) -/

/-- flat global state: `(p_pos, p_vel)` for every agent, then `p_pos` for
every landmark, concatenated.  `np.concatenate` of an empty list raises, so
the result is `none` for a world with no entities. -/
def stateConcat (w : World) : List ℚ :=
  (w.agents.flatMap fun a => [a.p_pos.1, a.p_pos.2, a.p_vel.1, a.p_vel.2]) ++
    (w.landmarks.flatMap fun p => [p.1, p.2])

/-- `state_structure = [0]; ...append(len(agents)*4); ...append(len(agents)*2)`.
Note the second appended width multiplies the AGENT count, not the landmark
count. -/
def stateWidths (w : World) : List ℕ :=
  [0, w.agents.length * 4, w.agents.length * 2]

/-- `get_state(structure=True)`: `np.cumsum(state_structure)`; the flat
state is concatenated (and would raise on an empty world) before the
structure branch returns. -/
def get_state_structure (w : World) : Option (List ℕ) :=
  if w.agents = [] ∧ w.landmarks = [] then none
  else some (npCumsum (stateWidths w))

/-- `get_state()` in value mode (no translation map configured). -/
def get_state (w : World) : Option (List ℚ) :=
  if w.agents = [] ∧ w.landmarks = [] then none
  else some (stateConcat w)

/-! ## Action spaces and the decoder (`__init__` lines 126-151, `_set_action`
lines 245-293) -/

/-- environment configuration flags and world dimensions read by the space
composer and the decoder. -/
structure Cfg where
  dim_p : ℕ
  dim_c : ℕ
  discrete_action_input : Bool
  discrete_action_space : Bool
  force_discrete_action : Bool
deriving Repr, DecidableEq

/-- the agent attributes the composer and decoder read. -/
structure Agent where
  movable : Bool
  silent : Bool
  accel : Option ℚ
deriving Repr, DecidableEq

/-- gym action space shapes as built by the composer:
`spaces.Discrete n`, `spaces.Box(low, high, (dim,))`,
`MultiDiscrete` (stored as the per-block sizes `high - low + 1`), and
`spaces.Tuple`. -/
inductive ActSpace where
  | discrete (n : ℕ)
  | box (low high : ℚ) (dim : ℕ)
  | multiDiscrete (sizes : List ℕ)
  | tuple (subs : List ActSpace)
deriving Repr

def isDiscreteSp : ActSpace → Bool
  | .discrete _ => true
  | _ => false

/-- `act_space.n` of a `spaces.Discrete`. -/
def spWidthN : ActSpace → ℕ
  | .discrete n => n
  | _ => 0

/-- per-agent space construction from `__init__`: an optional movement
sub-space (if `movable`), an optional communication sub-space (if not
`silent`); two all-discrete sub-spaces collapse into a `MultiDiscrete` with
block bounds `[0, n-1]`, a mixed pair becomes a `Tuple`, a single sub-space
is returned alone, and an empty list hits `total_action_space[0]`, an
IndexError (`none`). -/
def makeActionSpace (cfg : Cfg) (uRange : ℚ) (agent : Agent) :
    Option ActSpace :=
  let u_sp : ActSpace :=
    if cfg.discrete_action_space then .discrete (cfg.dim_p * 2 + 1)
    else .box (-uRange) uRange cfg.dim_p
  let c_sp : ActSpace :=
    if cfg.discrete_action_space then .discrete cfg.dim_c
    else .box 0 1 cfg.dim_c
  let total : List ActSpace :=
    (if agent.movable then [u_sp] else []) ++
      (if agent.silent then [] else [c_sp])
  if total.length > 1 then
    if total.all isDiscreteSp then
      some (.multiDiscrete (total.map spWidthN))
    else some (.tuple total)
  else total.head?

/-- total buffer width of a `MultiDiscrete` space: the sum of the per-block
sizes `high - low + 1`. -/
def mdTotalWidth (sizes : List ℕ) : ℕ :=
  sizes.sum

/-- a raw action value handed to `_set_action`: either a Python scalar or a
numpy vector. -/
inductive ActVal where
  | scalar (v : ℚ)
  | vec (vs : List ℚ)
deriving Repr, DecidableEq

/-- decoder failure modes: Python IndexError, numpy ValueError, and the
final `assert len(action) == 0`. -/
inductive DecodeErr where
  | indexError
  | valueError
  | assertFail
deriving Repr, DecidableEq

/-- decoder output: the control fields written on the agent,
`agent.action.u` and `agent.action.c`. -/
structure Control where
  u : List ℚ
  c : List ℚ
deriving Repr, DecidableEq

/-- the `MultiDiscrete` splitting loop:
`for s in size: act.append(action[index:index+s]); index += s`
(`index` is absolute; Python slices clamp silently). -/
def splitSizes (sizes : List ℕ) (buf : List ℚ) (index : ℕ) : List (List ℚ) :=
  match sizes with
  | [] => []
  | s :: rest => ((buf.drop index).take s) :: splitSizes rest buf (index + s)

/-- segment list preparation: `MultiDiscrete` splits the buffer (a scalar is
not subscriptable: error), every other space wraps the raw action as the
single segment `[action]`. -/
def splitAction (space : ActSpace) (action : ActVal) :
    Except DecodeErr (List ActVal) :=
  match space with
  | .multiDiscrete sizes =>
    match action with
    | .vec buf => .ok ((splitSizes sizes buf 0).map ActVal.vec)
    | .scalar _ => .error .valueError
  | _ => .ok [action]

/-- Python truthiness of `seg == k` when `seg` may be a numpy array: a
scalar compares directly, a length-1 array compares its element, a length-0
array is falsy, and a longer array raises (ambiguous truth value). -/
def truthyEq (seg : ActVal) (k : ℚ) : Except DecodeErr Bool :=
  match seg with
  | .scalar v => .ok (v = k)
  | .vec [v] => .ok (v = k)
  | .vec [] => .ok false
  | .vec _ => .error .valueError

/-- `l[i] = x` on a numpy vector: IndexError out of range. -/
def setAt (l : List ℚ) (i : ℕ) (x : ℚ) : Except DecodeErr (List ℚ) :=
  if i < l.length then .ok (l.set i x) else .error .indexError

/-- `seg[i]` on a numpy vector (a scalar is not subscriptable). -/
def vecGet (seg : ActVal) (i : ℕ) : Except DecodeErr ℚ :=
  match seg with
  | .scalar _ => .error .valueError
  | .vec vs =>
    match vs.get? i with
    | some x => .ok x
    | none => .error .indexError

/-- first index of the maximum, `np.argmax` with first-occurrence tie
breaking. -/
def argmaxAux : List ℚ → ℕ → ℕ → ℚ → ℕ
  | [], _, best, _ => best
  | x :: xs, i, best, bv =>
    if bv < x then argmaxAux xs (i + 1) i x else argmaxAux xs (i + 1) best bv

/-- one-hot vector of length `n` at index `i`. -/
def oneHot (n i : ℕ) : List ℚ :=
  (List.range n).map fun j => if j = i then 1 else 0

/-- the `force_discrete_action` snap:
`d = np.argmax(action[0]); action[0][:] = 0.0; action[0][d] = 1.0`
(argmax of an empty array raises; a scalar is not writable by slice). -/
def forceOneHot (seg : ActVal) : Except DecodeErr ActVal :=
  match seg with
  | .scalar _ => .error .valueError
  | .vec [] => .error .valueError
  | .vec (x :: xs) => .ok (.vec (oneHot (x :: xs).length (argmaxAux xs 1 0 x)))

/-- movement decode in `discrete_action_input` mode: start from
`np.zeros(dim_p)` and run the four sequential value tests
`if action[0] == 1: u[0] = -1.0` ... `if action[0] == 4: u[1] = +1.0`. -/
def decodeMoveDiscreteInput (dim_p : ℕ) (seg : ActVal) :
    Except DecodeErr (List ℚ) := do
  let u := List.replicate dim_p (0 : ℚ)
  let b1 ← truthyEq seg 1
  let u ← if b1 then setAt u 0 (-1) else .ok u
  let b2 ← truthyEq seg 2
  let u ← if b2 then setAt u 0 1 else .ok u
  let b3 ← truthyEq seg 3
  let u ← if b3 then setAt u 1 (-1) else .ok u
  let b4 ← truthyEq seg 4
  if b4 then setAt u 1 1 else .ok u

/-- movement decode outside `discrete_action_input` mode: optional
force-discrete snap, then either the paired push/pull interpretation
`u[0] += action[0][1] - action[0][2]; u[1] += action[0][3] - action[0][4]`
(when `discrete_action_space`) or the raw vector used verbatim.  The model
requires the verbatim branch to receive a vector. -/
def decodeMoveCont (cfg : Cfg) (seg : ActVal) :
    Except DecodeErr (List ℚ) := do
  let seg ← if cfg.force_discrete_action then forceOneHot seg else .ok seg
  if cfg.discrete_action_space then do
    let a1 ← vecGet seg 1
    let a2 ← vecGet seg 2
    let u ← setAt (List.replicate cfg.dim_p (0 : ℚ)) 0 (0 + (a1 - a2))
    let a3 ← vecGet seg 3
    let a4 ← vecGet seg 4
    setAt u 1 (0 + (a3 - a4))
  else
    match seg with
    | .scalar _ => .error .valueError
    | .vec vs => .ok vs

/-- a Python/numpy integer index into an array of length `dim`: must be an
integer, negative values wrap once. -/
def pyIndex (dim : ℕ) (v : ℚ) : Except DecodeErr ℕ :=
  if v.den = 1 then
    if 0 ≤ v.num ∧ v.num < dim then .ok v.num.toNat
    else if -(dim : ℤ) ≤ v.num ∧ v.num < 0 then .ok (v.num + dim).toNat
    else .error .indexError
  else .error .valueError

/-- `c[idx] = 1.0` where `idx` is the communication segment: a scalar sets
one entry, a numpy vector index (fancy indexing) sets every listed entry. -/
def setIndices (c : List ℚ) (seg : ActVal) : Except DecodeErr (List ℚ) :=
  match seg with
  | .scalar v => do
    let i ← pyIndex c.length v
    .ok (c.set i 1)
  | .vec vs =>
    vs.foldlM (fun acc v => do
      let i ← pyIndex acc.length v
      .ok (acc.set i 1)) c

/-- communication decode: in `discrete_action_input` mode build a one-hot
(`c = np.zeros(dim_c); c[action[0]] = 1.0`), otherwise use the raw vector
verbatim (the model requires a vector there). -/
def decodeComm (cfg : Cfg) (seg : ActVal) : Except DecodeErr (List ℚ) :=
  if cfg.discrete_action_input then
    setIndices (List.replicate cfg.dim_c (0 : ℚ)) seg
  else
    match seg with
    | .scalar _ => .error .valueError
    | .vec vs => .ok vs

/-- the movement block of `_set_action` (entered only when
`agent.movable`): reads `action[0]` (IndexError when no segment is left),
decodes it, scales by `sensitivity` (`agent.accel` when set, else the fixed
5.0), and pops the segment. -/
def moveStep (cfg : Cfg) (agent : Agent) (segs : List ActVal) :
    Except DecodeErr (List ℚ × List ActVal) :=
  match segs with
  | [] => .error .indexError
  | seg :: rest =>
    match (if cfg.discrete_action_input then
             decodeMoveDiscreteInput cfg.dim_p seg
           else decodeMoveCont cfg seg) with
    | .error e => .error e
    | .ok u =>
      let sensitivity := agent.accel.getD 5
      .ok (u.map (· * sensitivity), rest)

/-- the communication block of `_set_action` (entered only when the agent
is not `silent`). -/
def commStep (cfg : Cfg) (segs : List ActVal) :
    Except DecodeErr (List ℚ × List ActVal) :=
  match segs with
  | [] => .error .indexError
  | seg :: rest =>
    match decodeComm cfg seg with
    | .error e => .error e
    | .ok c => .ok (c, rest)

/-- `_set_action`: zero both control fields, split the raw action into
segments, consume the movement segment when `movable`, the communication
segment when not `silent`, and finally `assert len(action) == 0` on the
remaining segment list. -/
def setAction (cfg : Cfg) (agent : Agent) (space : ActSpace)
    (action : ActVal) : Except DecodeErr Control :=
  match splitAction space action with
  | .error e => .error e
  | .ok segs =>
    match (if agent.movable then moveStep cfg agent segs
           else .ok (List.replicate cfg.dim_p (0 : ℚ), segs)) with
    | .error e => .error e
    | .ok (u, segs) =>
      match (if agent.silent then
               .ok (List.replicate cfg.dim_c (0 : ℚ), segs)
             else commStep cfg segs) with
      | .error e => .error e
      | .ok (c, segs) =>
        if segs.length = 0 then .ok ⟨u, c⟩ else .error .assertFail

/-! ## Episode driver (`step` lines 170-202, `reset` lines 204-217) -/

/-- the environment state the step/reset logic reads and writes: the clock
(a float starting at `0.0` and incremented by 1 each step), the configured
`time_limit`, the `shared_reward` flag and the policy-agent count `n`. -/
structure EnvSt where
  time : ℚ
  time_limit : ℚ
  shared_reward : Bool
  n : ℕ
deriving Repr, DecidableEq

/-- what one `step` call produces: the new environment state, the returned
scalar `reward` and `done` flag, plus the internal lists `reward_n` (after
the cooperative broadcast) and `done_n` (collected from the done callbacks
and then discarded: `step` does not return it). -/
structure StepOut where
  st : EnvSt
  reward : ℚ
  done : ℚ
  reward_n : List ℚ
  done_n : List Bool
deriving Repr, DecidableEq

/-- one `step` call, given the per-agent reward callback values and done
callback values collected in the loop.  `reward = np.sum(reward_n)`; under
`shared_reward` the internal list becomes `[reward] * self.n`; the clock is
incremented and `done` is `1.0` exactly when `self.time == self.time_limit`,
else `0.0`. -/
def stepEnv (s : EnvSt) (rewards : List ℚ) (dones : List Bool) : StepOut :=
  let reward := rewards.sum
  let reward_n := if s.shared_reward then List.replicate s.n reward else rewards
  let time := s.time + 1
  let done : ℚ := if time = s.time_limit then 1 else 0
  ⟨{ s with time := time }, reward, done, reward_n, dones⟩

/-- `reset`: the clock returns to `0.0` (world/render resets are external). -/
def resetEnv (s : EnvSt) : EnvSt :=
  { s with time := 0 }

/-- `k` consecutive `step` calls (callback values are irrelevant to the
clock). -/
def stepN (s : EnvSt) : ℕ → EnvSt
  | 0 => s
  | k + 1 => (stepEnv (stepN s k) [] []).st

/-- the `done` flag returned by the k-th `step` call after a reset. -/
def doneAt (s : EnvSt) (k : ℕ) : ℚ :=
  (stepEnv (stepN (resetEnv s) (k - 1)) [] []).done

/-- the concrete world exhibiting the `get_state` structure defect:
one agent, two landmarks. -/
def stateBugWorld : World :=
  ⟨[⟨(1, 2), (3, 4)⟩], [(5, 6), (7, 8)]⟩

/-- a two-agent, one-landmark world (source observation widths
`[0, 4, 2, 2]`), used for concrete observation/translation witnesses. -/
def obsDemoWorld : World :=
  ⟨[⟨(1, 2), (3, 4)⟩, ⟨(10, 20), (30, 40)⟩], [(5, 6)]⟩

/-! ## Clock lemmas -/

lemma stepN_time (s : EnvSt) (k : ℕ) : (stepN s k).time = s.time + k := by
  induction k with
  | zero => simp [stepN]
  | succ k ih => simp [stepN, stepEnv, ih]; ring

lemma stepN_time_limit (s : EnvSt) (k : ℕ) :
    (stepN s k).time_limit = s.time_limit := by
  induction k with
  | zero => rfl
  | succ k ih => simpa [stepN, stepEnv] using ih

/-! ## Observation-length and translation lemmas -/

lemma obsOthers_length_ge (p : ℚ × ℚ) (l : List EntSt) (i id : ℕ)
    (h : id < i) : (obsOthers p l i id).length = 2 * l.length := by
  induction l generalizing i with
  | nil => simp [obsOthers]
  | cons a rest ih =>
    have hne : i ≠ id := by omega
    simp [obsOthers, hne, ih (i + 1) (by omega)]
    ring

lemma obsOthers_length_in (p : ℚ × ℚ) (l : List EntSt) (i id : ℕ)
    (h1 : i ≤ id) (h2 : id < i + l.length) :
    (obsOthers p l i id).length = 2 * (l.length - 1) := by
  induction l generalizing i with
  | nil => simp at h2; omega
  | cons a rest ih =>
    by_cases hi : i = id
    · subst hi
      simp [obsOthers, obsOthers_length_ge p rest (i + 1) i (by omega)]
    · have h1a : i + 1 ≤ id := by omega
      have h2a : id < (i + 1) + rest.length := by
        simp only [List.length_cons] at h2; omega
      simp [obsOthers, hi, ih (i + 1) h1a h2a]
      omega

lemma obsLandmarks_length (p : ℚ × ℚ) (ls : List (ℚ × ℚ)) :
    (obsLandmarks p ls).length = 2 * ls.length := by
  induction ls with
  | nil => simp [obsLandmarks]
  | cons x rest ih => simp [obsLandmarks] at ih ⊢; omega

lemma obsFlat_length (a : EntSt) (w : World) (id : ℕ)
    (h : id < w.agents.length) :
    (obsFlat a w id).length =
      4 + 2 * (w.agents.length - 1) + 2 * w.landmarks.length := by
  simp [obsFlat, selfObs, obsLandmarks_length,
    obsOthers_length_in a.p_pos w.agents 0 id (by omega) (by omega)]
  ring

lemma agents_getElem (w : World) (id : ℕ) (h : id < w.agents.length) :
    ∃ a, w.agents[id]? = some a := by
  cases hga : w.agents[id]? with
  | none => exact absurd (List.getElem?_eq_none_iff.mp hga) (by omega)
  | some a => exact ⟨a, rfl⟩

lemma writeSeg_app (pre : List ℚ) (k off : ℕ) (src : List ℚ)
    (h1 : pre.length ≤ off) (h2 : off + src.length ≤ pre.length + k) :
    writeSeg (pre ++ List.replicate k 0) off src =
      some (pre ++ List.replicate (off - pre.length) 0 ++ src ++
        List.replicate (pre.length + k - (off + src.length)) 0) := by
  unfold writeSeg
  rw [if_pos (Or.inr (by simp; omega))]
  congr 1
  rw [List.take_append_eq_append_take, List.take_of_length_le h1,
    List.take_replicate, List.drop_append_eq_append_drop,
    List.drop_eq_nil_of_le (by omega), List.drop_replicate]
  have hm : min (off - pre.length) k = off - pre.length := by omega
  have hk : k - (off + src.length - pre.length) =
      pre.length + k - (off + src.length) := by omega
  rw [hm, hk]
  simp [List.append_assoc]

/-- fully evaluated form of the translation loop for a four-entry map and
four cumulative source boundaries `[0, b1, b2, b3]`, under the
fits-without-overlap side conditions. -/
lemma translate_four (t0 t1 t2 t3 b1 b2 b3 : ℕ) (fl : List ℚ)
    (hfl : fl.length = b3) (hb1 : b1 ≤ b2) (hb2 : b2 ≤ b3)
    (h1 : t0 + b1 ≤ t1) (h2 : t1 + (b2 - b1) ≤ t2)
    (h3 : t2 + (b3 - b2) ≤ t3) :
    translate [t0, t1, t2, t3] [0, b1, b2, b3] fl =
      some ((((((List.replicate t0 0 ++ fl.take b1) ++
        List.replicate (t1 - (t0 + b1)) 0) ++ (fl.drop b1).take (b2 - b1)) ++
        List.replicate (t2 - (t1 + (b2 - b1))) 0) ++
        (fl.drop b2).take (b3 - b2)) ++
        List.replicate (t3 - (t2 + (b3 - b2))) 0) := by
  have ls1 : (fl.take b1).length = b1 := by simp [hfl]; omega
  have ls2 : ((fl.drop b1).take (b2 - b1)).length = b2 - b1 := by
    simp [hfl]; omega
  have ls3 : ((fl.drop b2).take (b3 - b2)).length = b3 - b2 := by
    simp [hfl]
  have e1 : writeSeg (List.replicate t3 0) t0 (fl.take b1) =
      some ((List.replicate t0 0 ++ fl.take b1) ++
        List.replicate (t3 - (t0 + b1)) 0) := by
    have h := writeSeg_app [] t3 t0 (fl.take b1) (by simp)
      (by simp [ls1]; omega)
    simp only [List.nil_append, List.length_nil, Nat.sub_zero, Nat.zero_add,
      ls1] at h
    exact h
  have hp2 : (List.replicate t0 (0 : ℚ) ++ fl.take b1).length = t0 + b1 := by
    simp [ls1]
  have e2 : writeSeg ((List.replicate t0 0 ++ fl.take b1) ++
      List.replicate (t3 - (t0 + b1)) 0) t1 ((fl.drop b1).take (b2 - b1)) =
      some ((((List.replicate t0 0 ++ fl.take b1) ++
        List.replicate (t1 - (t0 + b1)) 0) ++ (fl.drop b1).take (b2 - b1)) ++
        List.replicate (t3 - (t1 + (b2 - b1))) 0) := by
    have h := writeSeg_app (List.replicate t0 0 ++ fl.take b1)
      (t3 - (t0 + b1)) t1 ((fl.drop b1).take (b2 - b1))
      (by rw [hp2]; omega) (by rw [hp2, ls2]; omega)
    rw [hp2, ls2] at h
    have hk : t0 + b1 + (t3 - (t0 + b1)) - (t1 + (b2 - b1)) =
        t3 - (t1 + (b2 - b1)) := by omega
    rw [hk] at h
    exact h
  have hp3 : ((((List.replicate t0 (0 : ℚ) ++ fl.take b1) ++
      List.replicate (t1 - (t0 + b1)) 0) ++
      (fl.drop b1).take (b2 - b1))).length = t1 + (b2 - b1) := by
    simp [ls1, ls2]; omega
  have e3 : writeSeg ((((List.replicate t0 0 ++ fl.take b1) ++
      List.replicate (t1 - (t0 + b1)) 0) ++ (fl.drop b1).take (b2 - b1)) ++
      List.replicate (t3 - (t1 + (b2 - b1))) 0) t2
      ((fl.drop b2).take (b3 - b2)) =
      some ((((((List.replicate t0 0 ++ fl.take b1) ++
        List.replicate (t1 - (t0 + b1)) 0) ++ (fl.drop b1).take (b2 - b1)) ++
        List.replicate (t2 - (t1 + (b2 - b1))) 0) ++
        (fl.drop b2).take (b3 - b2)) ++
        List.replicate (t3 - (t2 + (b3 - b2))) 0) := by
    have h := writeSeg_app (((List.replicate t0 0 ++ fl.take b1) ++
      List.replicate (t1 - (t0 + b1)) 0) ++ (fl.drop b1).take (b2 - b1))
      (t3 - (t1 + (b2 - b1))) t2 ((fl.drop b2).take (b3 - b2))
      (by rw [hp3]; omega) (by rw [hp3, ls3]; omega)
    rw [hp3, ls3] at h
    have hk : t1 + (b2 - b1) + (t3 - (t1 + (b2 - b1))) - (t2 + (b3 - b2)) =
        t3 - (t2 + (b3 - b2)) := by omega
    rw [hk] at h
    exact h
  show translate [t0, t1, t2, t3] [0, b1, b2, b3] fl = _
  simp only [translate, List.getLast?, List.length_cons, List.length_nil]
  norm_num
  have hr : List.range 3 = [0, 1, 2] := rfl
  rw [hr]
  simp only [List.foldlM, List.get?, List.getElem?_cons_zero,
    List.getElem?_cons_succ, bind, Option.bind, List.drop_zero,
    Nat.sub_zero]
  rw [e1]
  dsimp only
  rw [e2]
  dsimp only
  rw [e3]
  dsimp only
  simp [List.append_assoc]

/-! ## Claim theorems -/

/-- C1: in a world with 1 agent and 2 landmarks, `get_state(structure=True)`
returns boundaries `[0, 4, 6]` — the landmark segment width is
`2 = 2 * n_agents`, not `4 = 2 * n_landmarks` as the claim requires — while
the flat state it is supposed to describe has length 8, so the descriptor
is inconsistent with the state vector itself.  This evaluates the code at
the failing input for the code_bug verdict. -/
theorem c1_state_structure_bug :
    get_state_structure stateBugWorld = some [0, 4, 6] ∧
    get_state stateBugWorld = some [1, 2, 3, 4, 5, 6, 7, 8] ∧
    stateBugWorld.agents.length = 1 ∧
    stateBugWorld.landmarks.length = 2 ∧
    (get_state stateBugWorld).map List.length = some 8 ∧
    (6 : ℕ) ≠ 8 :=
  ⟨rfl, rfl, rfl, rfl, rfl, by decide⟩

/-- C2 counterexample: for an agent with `movable=False, silent=True` the
sub-space list is empty and `__init__` evaluates `total_action_space[0]`,
an IndexError — no composite action space (empty or otherwise) is ever
produced, contradicting the claim at this concrete input. -/
theorem c2_empty_space_counterexample :
    makeActionSpace ⟨2, 3, true, true, false⟩ 1 ⟨false, true, none⟩ = none :=
  rfl

/-- C2 amended: for every configuration and every agent with
`movable=False` and `silent=True`, space construction aborts (out-of-bounds
read of the empty sub-space list), so no action space — in particular no
empty composite space — is produced for that agent, and there is no space
against which an empty buffer could be decoded. -/
theorem c2_amended_construction_fails (cfg : Cfg) (r : ℚ) (a : Agent)
    (hm : a.movable = false) (hs : a.silent = true) :
    makeActionSpace cfg r a = none := by
  rcases a with ⟨mov, sil, acc⟩
  cases hm; cases hs
  simp [makeActionSpace]

/-- C2 witness: the amended theorem applied at a concrete configuration and
agent. -/
theorem c2_amended_witness :
    makeActionSpace ⟨5, 7, false, false, true⟩ 2 ⟨false, true, some 9⟩ = none :=
  c2_amended_construction_fails ⟨5, 7, false, false, true⟩ 2
    ⟨false, true, some 9⟩ rfl rfl

/-- C3: the final `assert len(action) == 0` counts unconsumed SEGMENTS, not
buffer elements, and the `MultiDiscrete` split uses Python slices, which
clamp silently.  For the composite space `MultiDiscrete [5, 3]` (movable,
speaking agent, `dim_p=2`, `dim_c=3`, one-hot decode mode) whose total
width is 8, a buffer of length 9 decodes successfully — the trailing `99`
is silently dropped — and a buffer of length 7 also decodes successfully,
silently producing a short communication vector.  This contradicts both the
claim and the in-code comment `make sure we used all elements of action`:
evaluation of the code at the failing inputs. -/
theorem c3_wrong_length_not_fatal :
    makeActionSpace ⟨2, 3, false, true, false⟩ 1 ⟨true, false, none⟩ =
      some (.multiDiscrete [5, 3]) ∧
    mdTotalWidth [5, 3] = 8 ∧
    setAction ⟨2, 3, false, true, false⟩ ⟨true, false, none⟩
      (.multiDiscrete [5, 3]) (.vec [0, 1, 0, 0, 0, 0, 0, 1, 99]) =
      .ok ⟨[5, 0], [0, 0, 1]⟩ ∧
    setAction ⟨2, 3, false, true, false⟩ ⟨true, false, none⟩
      (.multiDiscrete [5, 3]) (.vec [0, 1, 0, 0, 0, 0, 0]) =
      .ok ⟨[5, 0], [0, 0]⟩ := by
  refine ⟨rfl, rfl, ?_, ?_⟩ <;>
    · simp only [setAction, splitAction, splitSizes, moveStep, commStep,
        decodeMoveCont, decodeComm, vecGet, setAt, bind, Except.bind,
        List.drop, List.take, List.map, List.replicate, List.set]
      norm_num

/-- C4: in discrete-action-input mode a movable (silent) agent with the
composer-built `Discrete(2*dim_p+1)` space decodes movement value 0 to zero
force, 1/2 to the negative/positive axis-0 unit and 3/4 to the
negative/positive axis-1 unit, scaled by `agent.accel` when set and by the
fixed default 5.0 otherwise; in particular value 2 with default sensitivity
gives final force `[5, 0]`. -/
theorem c4_discrete_input_mapping (dc : ℕ) (accel : Option ℚ) (r : ℚ) :
    makeActionSpace ⟨2, dc, true, true, false⟩ r ⟨true, true, accel⟩ =
      some (.discrete 5) ∧
    setAction ⟨2, dc, true, true, false⟩ ⟨true, true, accel⟩ (.discrete 5)
      (.scalar 0) = .ok ⟨[0, 0], List.replicate dc 0⟩ ∧
    setAction ⟨2, dc, true, true, false⟩ ⟨true, true, accel⟩ (.discrete 5)
      (.scalar 1) = .ok ⟨[-accel.getD 5, 0], List.replicate dc 0⟩ ∧
    setAction ⟨2, dc, true, true, false⟩ ⟨true, true, accel⟩ (.discrete 5)
      (.scalar 2) = .ok ⟨[accel.getD 5, 0], List.replicate dc 0⟩ ∧
    setAction ⟨2, dc, true, true, false⟩ ⟨true, true, accel⟩ (.discrete 5)
      (.scalar 3) = .ok ⟨[0, -accel.getD 5], List.replicate dc 0⟩ ∧
    setAction ⟨2, dc, true, true, false⟩ ⟨true, true, accel⟩ (.discrete 5)
      (.scalar 4) = .ok ⟨[0, accel.getD 5], List.replicate dc 0⟩ ∧
    setAction ⟨2, dc, true, true, false⟩ ⟨true, true, none⟩ (.discrete 5)
      (.scalar 2) = .ok ⟨[5, 0], List.replicate dc 0⟩ := by
  refine ⟨rfl, ?_, ?_, ?_, ?_, ?_, ?_⟩ <;>
    · simp only [setAction, splitAction, moveStep, decodeMoveDiscreteInput,
        truthyEq, setAt, bind, Except.bind, List.replicate, List.set]
      norm_num

/-- C7: starting from a reset (clock zeroed), the k-th step returns
termination flag 1.0 exactly when `k` equals `time_limit` (exact equality,
not greater-or-equal), and resetting again — even after an arbitrary number
of further steps — restores the same behavior. -/
theorem c7_exact_time_limit (s : EnvSt) (k m : ℕ) (hk : 1 ≤ k) :
    doneAt s k = (if (k : ℚ) = s.time_limit then 1 else 0) ∧
    doneAt (stepN s m) k = (if (k : ℚ) = s.time_limit then 1 else 0) := by
  have key : ∀ t : EnvSt, t.time_limit = s.time_limit →
      doneAt t k = (if (k : ℚ) = s.time_limit then 1 else 0) := by
    intro t ht
    have hcast : ((k - 1 : ℕ) : ℚ) + 1 = (k : ℚ) := by
      have h := Nat.sub_add_cancel hk
      exact_mod_cast congrArg (Nat.cast (R := ℚ)) h
    unfold doneAt stepEnv
    simp only [stepN_time, stepN_time_limit, resetEnv, ht]
    simp [hcast]
  exact ⟨key s rfl, key (stepN s m) (stepN_time_limit s m)⟩

/-- C7 witness: with `time_limit = 25`, step 24 returns 0.0, step 25
returns 1.0, step 26 returns 0.0, and after 40 more steps a reset restores
termination at step 25. -/
theorem c7_exact_time_limit_witness :
    doneAt ⟨7, 25, false, 3⟩ 24 = 0 ∧
    doneAt ⟨7, 25, false, 3⟩ 25 = 1 ∧
    doneAt ⟨7, 25, false, 3⟩ 26 = 0 ∧
    doneAt (stepN ⟨7, 25, false, 3⟩ 40) 25 = 1 := by
  refine ⟨?_, ?_, ?_, ?_⟩
  · have h := (c7_exact_time_limit ⟨7, 25, false, 3⟩ 24 0 (by norm_num)).1
    simpa using h
  · have h := (c7_exact_time_limit ⟨7, 25, false, 3⟩ 25 0 (by norm_num)).1
    simpa using h
  · have h := (c7_exact_time_limit ⟨7, 25, false, 3⟩ 26 0 (by norm_num)).1
    simpa using h
  · have h := (c7_exact_time_limit ⟨7, 25, false, 3⟩ 25 40 (by norm_num)).2
    simpa using h

/-- C8: the scalar reward returned by `step` is the sum of the per-agent
reward callback values; with `shared_reward` the internal per-agent list is
replaced by `n` copies of that sum (not the average), and without it the
list is unchanged; for three agents with rewards `[1, 2, 3]` the scalar is
6 and the broadcast list is `[6, 6, 6]`. -/
theorem c8_reward_sum_and_broadcast (s : EnvSt) (rew : List ℚ)
    (d : List Bool) :
    (stepEnv s rew d).reward = rew.sum ∧
    ((stepEnv s rew d).reward_n =
      if s.shared_reward then List.replicate s.n rew.sum else rew) ∧
    (stepEnv ⟨s.time, s.time_limit, true, 3⟩ [1, 2, 3] d).reward = 6 ∧
    (stepEnv ⟨s.time, s.time_limit, true, 3⟩ [1, 2, 3] d).reward_n =
      [6, 6, 6] := by
  refine ⟨rfl, rfl, ?_, ?_⟩ <;> simp [stepEnv, List.sum] <;> norm_num

/-- C9: the termination flag returned by `step` depends only on the clock
and the configured `time_limit`: the done callback results are collected
into `done_n` but never influence it — two steps taken at the same clock
value with the same limit return the same flag whatever the callbacks
return. -/
theorem c9_done_ignores_callbacks (s₁ s₂ : EnvSt) (r₁ r₂ : List ℚ)
    (d₁ d₂ : List Bool) (ht : s₁.time = s₂.time)
    (hl : s₁.time_limit = s₂.time_limit) :
    (stepEnv s₁ r₁ d₁).done_n = d₁ ∧
    (stepEnv s₁ r₁ d₁).done = (stepEnv s₂ r₂ d₂).done := by
  constructor
  · rfl
  · simp [stepEnv, ht, hl]

/-- C9 witness: the theorem applied at a concrete clock value with
different reward lists and different done-callback results. -/
theorem c9_done_ignores_callbacks_witness :
    (stepEnv ⟨24, 25, false, 2⟩ [1] [true, true]).done_n = [true, true] ∧
    (stepEnv ⟨24, 25, false, 2⟩ [1] [true, true]).done =
      (stepEnv ⟨24, 25, true, 2⟩ [5, 5] [false]).done :=
  c9_done_ignores_callbacks ⟨24, 25, false, 2⟩ ⟨24, 25, true, 2⟩ [1] [5, 5]
    [true, true] [false] rfl rfl

/-- C10: `_set_action` zeroes both control fields before consuming the
buffer and only the `movable` (resp. non-`silent`) branch ever writes the
movement (resp. communication) field, so after ANY successful decode — over
every configuration, agent, space and raw action — a non-movable agent ends
with the zero force vector of length `dim_p` and a silent agent ends with
the zero communication vector of length `dim_c`.  The invariant is
re-established by every decode, hence on every step. -/
theorem c10_zeroed_controls (cfg : Cfg) (agent : Agent) (space : ActSpace)
    (action : ActVal) (ctrl : Control)
    (h : setAction cfg agent space action = .ok ctrl) :
    (agent.movable = false → ctrl.u = List.replicate cfg.dim_p 0) ∧
    (agent.silent = true → ctrl.c = List.replicate cfg.dim_c 0) := by
  unfold setAction at h
  split at h
  · exact absurd h (by simp)
  next segs hsegs =>
  split at h
  · exact absurd h (by simp)
  next u segs2 hmv =>
  split at h
  · exact absurd h (by simp)
  next c segs3 hcm =>
  split at h
  · injection h with h2
    cases h2
    constructor
    · intro hm
      rw [hm] at hmv
      simp only [Bool.false_eq_true, if_false] at hmv
      injection hmv with hmv2
      injection hmv2
      simp_all
    · intro hs
      rw [hs] at hcm
      simp only [if_true] at hcm
      injection hcm with hcm2
      injection hcm2
      simp_all
  · exact absurd h (by simp)

/-- C10 witness: a non-movable, speaking agent (`dim_p = 2`, `dim_c = 3`)
successfully decodes the scalar communication action 1, and the theorem
yields the zero movement force. -/
theorem c10_zeroed_controls_witness :
    (Control.mk [0, 0] [0, 1, 0]).u = List.replicate 2 0 := by
  have h := c10_zeroed_controls ⟨2, 3, true, true, false⟩ ⟨false, false, none⟩
    (.discrete 3) (.scalar 1) ⟨[0, 0], [0, 1, 0]⟩ rfl
  exact h.1 rfl

/-- C6: with no translation map, `get_obs_agent(agent_id, structure=True)`
is the cumulative sum starting at 0 of the widths
`[4, 2*(n_agents-1), 2*n_landmarks]`, its last entry is the length of the
flat observation, and slicing the flat vector at consecutive descriptor
boundaries and concatenating the slices reproduces it exactly. -/
theorem c6_structure_roundtrip (w : World) (id : ℕ)
    (h : id < w.agents.length) :
    get_obs_structure w id =
      some [0, 4, 4 + 2 * (w.agents.length - 1),
        4 + 2 * (w.agents.length - 1) + 2 * w.landmarks.length] ∧
    ∃ fl, get_obs_agent w id none = some fl ∧
      fl.length = 4 + 2 * (w.agents.length - 1) + 2 * w.landmarks.length ∧
      fl.take 4 ++ ((fl.drop 4).take (2 * (w.agents.length - 1))) ++
        ((fl.drop (4 + 2 * (w.agents.length - 1))).take
          (2 * w.landmarks.length)) = fl := by
  obtain ⟨a, ha⟩ := agents_getElem w id h
  constructor
  · simp [get_obs_structure, ha, npCumsum, cumsumFrom, obsWidths]
  · refine ⟨obsFlat a w id, ?_, obsFlat_length a w id h, ?_⟩
    · simp [get_obs_agent, ha]
    · set w1 := 2 * (w.agents.length - 1)
      set w2 := 2 * w.landmarks.length
      have hl := obsFlat_length a w id h
      set fl := obsFlat a w id
      have h4 : (fl.drop (4 + w1)).take w2 = fl.drop (4 + w1) :=
        List.take_of_length_le (by rw [List.length_drop, hl]; omega)
      have h3 : (fl.drop 4).drop w1 = fl.drop (4 + w1) := by
        rw [List.drop_drop]
      rw [h4, ← h3, List.append_assoc, List.take_append_drop,
        List.take_append_drop]

/-- C6 witness: the theorem applied to the two-agent, one-landmark world at
agent 0: descriptor `[0, 4, 6, 8]`, flat length 8, and the slice
round-trip. -/
theorem c6_structure_roundtrip_witness :
    get_obs_structure obsDemoWorld 0 = some [0, 4, 6, 8] ∧
    ∃ fl, get_obs_agent obsDemoWorld 0 none = some fl ∧
      fl.length = 8 ∧
      fl.take 4 ++ ((fl.drop 4).take 2) ++ ((fl.drop 6).take 2) = fl := by
  have h := c6_structure_roundtrip obsDemoWorld 0 (by decide)
  simpa [obsDemoWorld] using h

/-- C5: when a translation map `[t0, t1, t2, t3]` is configured (wide
enough and non-overlapping per the TranslationMap invariant), the
translated observation is exactly: source segment `i` (of width `w_i` per
the structure descriptor) at positions `[t_i, t_i + w_i)` with its
untranslated contents, zeros everywhere outside those ranges, and total
length `t3`, the last map entry; with no translation map configured the
untranslated flat concatenation is returned. -/
theorem c5_translation_layout (w : World) (id : ℕ)
    (h : id < w.agents.length) (t0 t1 t2 t3 : ℕ)
    (h1 : t0 + 4 ≤ t1)
    (h2 : t1 + 2 * (w.agents.length - 1) ≤ t2)
    (h3 : t2 + 2 * w.landmarks.length ≤ t3) :
    ∃ fl, get_obs_agent w id none = some fl ∧
      get_obs_agent w id (some [t0, t1, t2, t3]) =
        some ((((((List.replicate t0 0 ++ fl.take 4) ++
          List.replicate (t1 - (t0 + 4)) 0) ++
          (fl.drop 4).take (2 * (w.agents.length - 1))) ++
          List.replicate (t2 - (t1 + 2 * (w.agents.length - 1))) 0) ++
          (fl.drop (4 + 2 * (w.agents.length - 1))).take
            (2 * w.landmarks.length)) ++
          List.replicate (t3 - (t2 + 2 * w.landmarks.length)) 0) ∧
      ((((((List.replicate t0 (0 : ℚ) ++ fl.take 4) ++
          List.replicate (t1 - (t0 + 4)) 0) ++
          (fl.drop 4).take (2 * (w.agents.length - 1))) ++
          List.replicate (t2 - (t1 + 2 * (w.agents.length - 1))) 0) ++
          (fl.drop (4 + 2 * (w.agents.length - 1))).take
            (2 * w.landmarks.length)) ++
          List.replicate (t3 - (t2 + 2 * w.landmarks.length)) 0).length =
        t3 := by
  obtain ⟨a, ha⟩ := agents_getElem w id h
  set w1 := 2 * (w.agents.length - 1) with hw1
  set w2 := 2 * w.landmarks.length with hw2
  have hfl : (obsFlat a w id).length = 4 + w1 + w2 := obsFlat_length a w id h
  have hcs : npCumsum (obsWidths w) = [0, 4, 4 + w1, 4 + w1 + w2] := by
    simp [npCumsum, cumsumFrom, obsWidths, hw1, hw2]
  refine ⟨obsFlat a w id, by simp [get_obs_agent, ha], ?_, ?_⟩
  · have ht := translate_four t0 t1 t2 t3 4 (4 + w1) (4 + w1 + w2)
      (obsFlat a w id) hfl (by omega) (by omega) (by omega) (by omega)
      (by omega)
    have r1 : 4 + w1 - 4 = w1 := by omega
    have r2 : 4 + w1 + w2 - (4 + w1) = w2 := by omega
    rw [r1, r2] at ht
    simp only [get_obs_agent, List.get?_eq_getElem?, ha, hcs]
    exact ht
  · have l4 : ((obsFlat a w id).take 4).length = 4 := by
      rw [List.length_take]; omega
    have lw1 : (((obsFlat a w id).drop 4).take w1).length = w1 := by
      rw [List.length_take, List.length_drop]; omega
    have lw2 : (((obsFlat a w id).drop (4 + w1)).take w2).length = w2 := by
      rw [List.length_take, List.length_drop]; omega
    simp [l4, lw1, lw2]
    omega

/-- C5 witness: in the two-agent, one-landmark world (source widths
`[4, 2, 2]`) with translation map `[0, 6, 8, 12]`, the flat observation
`[1, 2, 3, 4, -9, -18, 4, 4]` is laid out with segment 0 at `[0, 4)`,
segment 1 at `[6, 8)`, segment 2 at `[8, 10)` and zeros at `[4, 6)` and
`[10, 12)`. -/
theorem c5_translation_layout_witness :
    get_obs_agent obsDemoWorld 0 none =
      some [1, 2, 3, 4, -9, -18, 4, 4] ∧
    get_obs_agent obsDemoWorld 0 (some [0, 6, 8, 12]) =
      some [1, 2, 3, 4, 0, 0, -9, -18, 4, 4, 0, 0] := by
  obtain ⟨fl, hfl, htr, hlen⟩ := c5_translation_layout obsDemoWorld 0
    (by decide) 0 6 8 12 (by decide) (by decide) (by decide)
  have hv : get_obs_agent obsDemoWorld 0 none =
      some [1, 2, 3, 4, -9, -18, 4, 4] := by
    simp [get_obs_agent, obsFlat, selfObs, obsOthers, obsLandmarks,
      obsDemoWorld]
    norm_num
  have hfl2 : fl = [1, 2, 3, 4, -9, -18, 4, 4] := by
    rw [hv] at hfl
    exact (Option.some_inj.mp hfl.symm)
  refine ⟨hv, ?_⟩
  rw [hfl2] at htr
  simpa [obsDemoWorld] using htr

end MPE

